import Mathlib

/-!
Verification development for the launcher FFI boundary declared in
`src/Launcher/src/launcher_ffi.h`.  The header declares a result-code
enumeration and four entry points (`launcher_show`, `launcher_show_sync`,
`launcher_hide`, `launcher_is_visible`); the implementation behind them is
not part of the repository, so the behavioural parts are modelled from the
specification's contract while the enumeration and the C types come
directly from the header.
-/

namespace Launcher

/-- Result codes, embedded from `launcher_ffi.h` lines 11-16:
`LAUNCHER_DISMISSED = 0`, `LAUNCHER_SUBMITTED = 1`,
`LAUNCHER_COMMAND = 2`, `LAUNCHER_OPTION = 3`. -/
inductive LauncherResultCode where
  | dismissed
  | submitted
  | command
  | option
  deriving DecidableEq, Repr

/-- The concrete integer value each enumerator carries in the header. -/
def LauncherResultCode.toInt : LauncherResultCode → Int
  | .dismissed => 0
  | .submitted => 1
  | .command => 2
  | .option => 3

/-- The value range of the C type `int32_t` used throughout the header
for result codes, the visibility flag and `buffer_size`. -/
def int32Representable (n : Int) : Prop := -(2 ^ 31) ≤ n ∧ n < 2 ^ 31

instance (n : Int) : Decidable (int32Representable n) := by
  unfold int32Representable; infer_instance

/-- The NUL byte that terminates a C string. -/
def nullChar : Char := Char.ofNat 0

/-- Modelled from the spec: the body of `launcher_show_sync` is absent from
the source, so the bytes it stores into the caller's buffer follow the
spec's words, which require the final query text to be written
"truncated/null-terminated within `buffer_size` if exceeded" and forbid
writing anything when the declared capacity is not positive.  With a
capacity of `bs` bytes, at most `bs - 1` query characters fit before the
mandatory terminator. -/
def writtenBytes (query : List Char) (bs : Int) : List Char :=
  if bs ≤ 0 then []
  else query.take (bs.toNat - 1) ++ [nullChar]

/-- Modelled from the spec: the effect of `launcher_show_sync` on the
caller-owned buffer (absent from the source).  The stored bytes replace a
prefix of the buffer; every byte past the stored region keeps its previous
value, since the spec's overflow invariant forbids touching it. -/
def writeQueryToBuffer (query : List Char) (buffer : List Char) (bs : Int) :
    List Char :=
  writtenBytes query bs ++ buffer.drop (writtenBytes query bs).length

/-- One invocation of the completion callback
`callback(result_code, query_text, context)`; the opaque `void*` context is
modelled as a number. -/
structure CallbackInvocation where
  result : LauncherResultCode
  query : List Char
  context : Nat
  deriving DecidableEq, Repr

/-- One presentation-to-dismissal lifecycle: the context registered by
`launcher_show` and the query text typed so far. -/
structure Session where
  ctx : Nat
  query : List Char
  deriving DecidableEq, Repr

/-- Modelled from the spec: the process-wide launcher state behind the
façade (absent from the source).  `visible` is the flag `launcher_is_visible`
reports; `active` holds the currently presented sessions (the spec's
serialization contract should keep it to at most one, which is proved below
rather than assumed by the type). -/
structure LauncherState where
  visible : Bool
  active : List Session
  deriving DecidableEq, Repr

/-- The state before any show operation: nothing presented. -/
def initState : LauncherState := { visible := false, active := [] }

/-- External events driving the launcher façade: a `launcher_show` call, the
user editing the query, the user ending the session with a result code, and
a `launcher_hide` call. -/
inductive LEvent where
  | show (ctx : Nat)
  | type (q : List Char)
  | finish (code : LauncherResultCode)
  | hide
  deriving DecidableEq, Repr

/-- Modelled from the spec: the launcher transition function (absent from
the source).  `show` begins presenting only when no session is active (the
spec serializes sessions); the user's terminal action and `launcher_hide`
end the session, fire the callback exactly once — `hide` "as if dismissed" —
and clear visibility. -/
def launcherStep (s : LauncherState) (e : LEvent) :
    LauncherState × List CallbackInvocation :=
  match e with
  | .show ctx =>
      match s.active with
      | [] => ({ visible := true, active := [{ ctx := ctx, query := [] }] }, [])
      | _ :: _ => (s, [])
  | .type q =>
      match s.active with
      | sess :: rest => ({ s with active := { sess with query := q } :: rest }, [])
      | [] => (s, [])
  | .finish code =>
      match s.active with
      | sess :: _ =>
          ({ visible := false, active := [] },
           [{ result := code, query := sess.query, context := sess.ctx }])
      | [] => (s, [])
  | .hide =>
      match s.active with
      | sess :: _ =>
          ({ visible := false, active := [] },
           [{ result := .dismissed, query := sess.query, context := sess.ctx }])
      | [] => (s, [])

/-- Run the façade over a list of events, collecting every callback
invocation in order. -/
def launcherRun (s : LauncherState) :
    List LEvent → LauncherState × List CallbackInvocation
  | [] => (s, [])
  | e :: es =>
      let out := launcherStep s e
      let rest := launcherRun out.1 es
      (rest.1, out.2 ++ rest.2)

/-- Modelled from the spec: `launcher_show` begins presenting the overlay
without blocking; the placeholder is a read-only hint with no effect on the
state machine. -/
def launcher_show (s : LauncherState) (placeholder : List Char) (ctx : Nat) :
    LauncherState × List CallbackInvocation :=
  let _ := placeholder
  launcherStep s (.show ctx)

/-- Modelled from the spec: `launcher_hide` programmatically ends any
currently presented session as if dismissed and is a no-op otherwise. -/
def launcher_hide (s : LauncherState) :
    LauncherState × List CallbackInvocation :=
  launcherStep s .hide

/-- Modelled from the spec: `launcher_is_visible` returns the current
visibility flag as the header's `int32_t` (1 or 0) and performs no state
change. -/
def launcher_is_visible (s : LauncherState) : Int × LauncherState :=
  (if s.visible then 1 else 0, s)

/-- The events of one complete session: a `launcher_show` call, the typed
edits, and the user's terminal action. -/
def sessionEvents (ctx : Nat) (typed : List (List Char)) (code : LauncherResultCode) :
    List LEvent :=
  LEvent.show ctx :: typed.map LEvent.type ++ [LEvent.finish code]

/-- The query text held by the session after a list of edits, starting
empty: the last edit wins. -/
def finalQuery (typed : List (List Char)) : List Char :=
  typed.foldl (fun _ t => t) []

/-- Modelled from the spec: `launcher_show_sync` blocks the caller, so in
this functional model it is the function that runs a whole session to its
end and only then returns the session's result code, the updated buffer and
the post-session state. -/
def launcher_show_sync (placeholder : List Char) (typed : List (List Char))
    (code : LauncherResultCode) (buffer : List Char) (bs : Int) :
    Int × List Char × LauncherState :=
  let _ := placeholder
  let out := launcherRun initState (sessionEvents 0 typed code)
  let cb := out.2.headD { result := code, query := [], context := 0 }
  (cb.result.toInt, writeQueryToBuffer cb.query buffer bs, out.1)

lemma writtenBytes_length_le (query : List Char) (bs : Int) :
    (writtenBytes query bs).length ≤ bs.toNat := by
  unfold writtenBytes
  split
  · simp
  · simp only [List.length_append, List.length_take, List.length_singleton]
    have h := Nat.min_le_right query.length (bs.toNat - 1)
    omega

lemma writeQueryToBuffer_length (query buffer : List Char) (bs : Int)
    (h : bs.toNat ≤ buffer.length) :
    (writeQueryToBuffer query buffer bs).length = buffer.length := by
  have hw := writtenBytes_length_le query bs
  simp only [writeQueryToBuffer, List.length_append, List.length_drop]
  omega

lemma writeQueryToBuffer_drop (query buffer : List Char) (bs : Int) :
    (writeQueryToBuffer query buffer bs).drop bs.toNat = buffer.drop bs.toNat := by
  have hw := writtenBytes_length_le query bs
  simp only [writeQueryToBuffer, List.drop_append_eq_append_drop, List.drop_drop]
  rw [List.drop_eq_nil_of_le hw]
  simp only [List.nil_append]
  congr 1
  omega

lemma writtenBytes_nonpos (query : List Char) (bs : Int) (h : bs ≤ 0) :
    writtenBytes query bs = [] := by
  unfold writtenBytes; rw [if_pos h]

lemma writeQueryToBuffer_nonpos (query buffer : List Char) (bs : Int)
    (h : bs ≤ 0) : writeQueryToBuffer query buffer bs = buffer := by
  simp [writeQueryToBuffer, writtenBytes_nonpos query bs h]

lemma writtenBytes_getLast (query : List Char) (bs : Int) (h : 0 < bs) :
    (writtenBytes query bs).getLast? = some nullChar := by
  unfold writtenBytes
  rw [if_neg (by omega)]
  exact List.getLast?_concat _

/-- C1: for every call to `launcher_show_sync` with a caller-owned buffer of
the declared capacity, the stored query text is truncated to fit, the stored
region is at most `buffer_size` bytes and ends in the NUL terminator when
the capacity is positive, the buffer does not grow, and every byte at
offset `buffer_size` or beyond keeps its previous value. -/
theorem show_sync_never_overflows (query buffer : List Char) (bs : Int)
    (h : bs.toNat ≤ buffer.length) :
    (writtenBytes query bs).length ≤ bs.toNat ∧
    (writeQueryToBuffer query buffer bs).length = buffer.length ∧
    (writeQueryToBuffer query buffer bs).drop bs.toNat = buffer.drop bs.toNat ∧
    (0 < bs →
      writtenBytes query bs = query.take (bs.toNat - 1) ++ [nullChar] ∧
      (writtenBytes query bs).getLast? = some nullChar) :=
  ⟨writtenBytes_length_le query bs,
   writeQueryToBuffer_length query buffer bs h,
   writeQueryToBuffer_drop query buffer bs,
   fun hbs => ⟨by unfold writtenBytes; rw [if_neg (by omega)],
               writtenBytes_getLast query bs hbs⟩⟩

/-- C1 witness: a query of three characters against a buffer of capacity 2
stores 2 bytes, keeps the third buffer byte intact and NUL-terminates. -/
theorem show_sync_never_overflows_witness :
    ((2 : Int).toNat ≤ (['x', 'y', 'z'] : List Char).length) ∧
    ((writtenBytes ['a', 'b', 'c'] 2).length ≤ (2 : Int).toNat ∧
     (writeQueryToBuffer ['a', 'b', 'c'] ['x', 'y', 'z'] 2).length =
       (['x', 'y', 'z'] : List Char).length ∧
     (writeQueryToBuffer ['a', 'b', 'c'] ['x', 'y', 'z'] 2).drop (2 : Int).toNat =
       (['x', 'y', 'z'] : List Char).drop (2 : Int).toNat ∧
     ((0 : Int) < 2 →
       writtenBytes ['a', 'b', 'c'] 2 =
         (['a', 'b', 'c'] : List Char).take ((2 : Int).toNat - 1) ++ [nullChar] ∧
       (writtenBytes ['a', 'b', 'c'] 2).getLast? = some nullChar)) :=
  ⟨by decide, show_sync_never_overflows ['a', 'b', 'c'] ['x', 'y', 'z'] 2 (by decide)⟩

/-- C9: the header fixes the encoding `LAUNCHER_DISMISSED = 0`,
`LAUNCHER_SUBMITTED = 1`, `LAUNCHER_COMMAND = 2`, `LAUNCHER_OPTION = 3`;
the four values are pairwise distinct and each is representable in the
`int32_t` carried by the callback and returned by `launcher_show_sync`. -/
theorem result_code_encoding_fixed :
    (LauncherResultCode.toInt .dismissed = 0 ∧
     LauncherResultCode.toInt .submitted = 1 ∧
     LauncherResultCode.toInt .command = 2 ∧
     LauncherResultCode.toInt .option = 3) ∧
    ([LauncherResultCode.dismissed, .submitted, .command, .option].map
      LauncherResultCode.toInt).Nodup ∧
    (∀ c : LauncherResultCode, int32Representable c.toInt) := by
  refine ⟨⟨rfl, rfl, rfl, rfl⟩, by decide, ?_⟩
  intro c
  cases c <;> decide

/-- C10: `buffer_size` has the signed type `int32_t`, so negative
capacities such as `-1` are expressible at the interface; for every
capacity that is zero or negative the modelled implementation stores
nothing and leaves the caller's buffer exactly as it was. -/
theorem nonpositive_buffer_size_writes_nothing :
    (int32Representable (-1) ∧ (-1 : Int) < 0) ∧
    (∀ (query buffer : List Char) (bs : Int), bs ≤ 0 →
      writtenBytes query bs = [] ∧
      writeQueryToBuffer query buffer bs = buffer) := by
  refine ⟨⟨by decide, by decide⟩, ?_⟩
  intro query buffer bs h
  exact ⟨writtenBytes_nonpos query bs h, writeQueryToBuffer_nonpos query buffer bs h⟩

/-- C10 witness: capacity `-3` is nonpositive and stores nothing into a
concrete buffer. -/
theorem nonpositive_buffer_size_writes_nothing_witness :
    writtenBytes ['a'] (-3) = [] ∧
    writeQueryToBuffer ['a'] ['x', 'y'] (-3) = ['x', 'y'] :=
  nonpositive_buffer_size_writes_nothing.2 ['a'] ['x', 'y'] (-3) (by decide)

lemma launcherRun_append (s : LauncherState) (es1 es2 : List LEvent) :
    launcherRun s (es1 ++ es2) =
      ((launcherRun (launcherRun s es1).1 es2).1,
       (launcherRun s es1).2 ++ (launcherRun (launcherRun s es1).1 es2).2) := by
  induction es1 generalizing s with
  | nil => simp [launcherRun]
  | cons e es ih => simp [launcherRun, ih]

lemma launcherRun_types (ts : List (List Char)) (ctx : Nat) (q : List Char) :
    launcherRun { visible := true, active := [{ ctx := ctx, query := q }] }
        (ts.map LEvent.type) =
      ({ visible := true,
         active := [{ ctx := ctx, query := ts.foldl (fun _ t => t) q }] }, []) := by
  induction ts generalizing q with
  | nil => simp [launcherRun]
  | cons t ts ih => simp [launcherRun, launcherStep, ih]

lemma launcherRun_session (ctx : Nat) (typed : List (List Char))
    (code : LauncherResultCode) :
    launcherRun initState (sessionEvents ctx typed code) =
      ({ visible := false, active := [] },
       [{ result := code, query := finalQuery typed, context := ctx }]) := by
  show launcherRun initState
      (LEvent.show ctx :: (typed.map LEvent.type ++ [LEvent.finish code])) = _
  rw [launcherRun]
  simp only [launcherStep, initState, launcherRun_append, launcherRun_types]
  simp [launcherRun, launcherStep, finalQuery]

/-- C2: every session ends in exactly one result code: a complete session
run emits exactly one callback invocation, its code belongs to the closed
four-value set, and the enumeration itself has exactly those four values. -/
theorem session_exactly_one_result_code :
    (∀ c : LauncherResultCode,
      c = .dismissed ∨ c = .submitted ∨ c = .command ∨ c = .option) ∧
    (∀ (ctx : Nat) (typed : List (List Char)) (code : LauncherResultCode),
      (launcherRun initState (sessionEvents ctx typed code)).2.length = 1 ∧
      (launcherRun initState (sessionEvents ctx typed code)).2.map
        CallbackInvocation.result = [code]) := by
  refine ⟨fun c => by cases c <;> simp, ?_⟩
  intro ctx typed code
  rw [launcherRun_session]
  simp

/-- C3: for every session started by `launcher_show`, the completion
callback fires exactly once, carrying the session's result code, the final
query text and the caller's context, and the state after that single
invocation is no longer visible. -/
theorem show_callback_exactly_once (ctx : Nat) (typed : List (List Char))
    (code : LauncherResultCode) :
    (launcherRun initState (sessionEvents ctx typed code)).2 =
      [{ result := code, query := finalQuery typed, context := ctx }] ∧
    (launcherRun initState (sessionEvents ctx typed code)).1.visible = false := by
  rw [launcherRun_session]
  exact ⟨rfl, rfl⟩

/-- C4: `launcher_show_sync` returns only once the session has ended: its
result is the session's code, the post-call state is dismissed and empty,
the buffer holds the final query text as written by the bounded store, and
with a nonpositive capacity the buffer is returned unchanged, so capturing
any text requires a positive `buffer_size`. -/
theorem show_sync_blocks_returns_code (placeholder : List Char)
    (typed : List (List Char)) (code : LauncherResultCode)
    (buffer : List Char) (bs : Int) :
    (launcher_show_sync placeholder typed code buffer bs).1 = code.toInt ∧
    (launcher_show_sync placeholder typed code buffer bs).2.2.visible = false ∧
    (launcher_show_sync placeholder typed code buffer bs).2.2.active = [] ∧
    (launcher_show_sync placeholder typed code buffer bs).2.1 =
      writeQueryToBuffer (finalQuery typed) buffer bs ∧
    (bs ≤ 0 → (launcher_show_sync placeholder typed code buffer bs).2.1 = buffer) := by
  have hrun := launcherRun_session 0 typed code
  unfold launcher_show_sync
  rw [hrun]
  refine ⟨rfl, rfl, rfl, rfl, fun h => ?_⟩
  exact writeQueryToBuffer_nonpos (finalQuery typed) buffer bs h

/-- C4 witness: a concrete blocking session with capacity 0 returns the
code and leaves the one-byte buffer untouched. -/
theorem show_sync_blocks_returns_code_witness :
    (launcher_show_sync [] [['h', 'i']] .submitted ['x'] 0).1 =
      LauncherResultCode.toInt .submitted ∧
    (launcher_show_sync [] [['h', 'i']] .submitted ['x'] 0).2.1 = ['x'] :=
  ⟨(show_sync_blocks_returns_code [] [['h', 'i']] .submitted ['x'] 0).1,
   (show_sync_blocks_returns_code [] [['h', 'i']] .submitted ['x'] 0).2.2.2.2
     (by decide)⟩

/-- The launcher invariant: the visibility flag agrees with the presence of
an active session, and sessions are serialized to at most one. -/
def LInv (s : LauncherState) : Prop :=
  (s.visible = true ↔ s.active ≠ []) ∧ s.active.length ≤ 1

lemma launcherStep_LInv (s : LauncherState) (e : LEvent) (h : LInv s) :
    LInv (launcherStep s e).1 := by
  obtain ⟨h1, h2⟩ := h
  cases e
  · rename_i ctx
    cases hs : s.active with
    | nil => simp [launcherStep, hs, LInv]
    | cons a t => simp only [launcherStep, hs]; exact ⟨h1, hs ▸ h2⟩
  · rename_i q
    cases hs : s.active with
    | nil => simp only [launcherStep, hs]; exact ⟨h1, hs ▸ h2⟩
    | cons a t =>
        have hv : s.visible = true := h1.mpr (by simp [hs])
        rw [hs] at h2
        simp only [List.length_cons] at h2
        constructor
        · simp [launcherStep, hs, hv]
        · simp only [launcherStep, hs, List.length_cons]
          omega
  · rename_i code
    cases hs : s.active with
    | nil => simp only [launcherStep, hs]; exact ⟨h1, hs ▸ h2⟩
    | cons a t => simp [launcherStep, hs, LInv]
  · cases hs : s.active with
    | nil => simp only [launcherStep, hs]; exact ⟨h1, hs ▸ h2⟩
    | cons a t => simp [launcherStep, hs, LInv]

lemma launcherRun_LInv (es : List LEvent) (s : LauncherState) (h : LInv s) :
    LInv (launcherRun s es).1 := by
  induction es generalizing s with
  | nil => simpa [launcherRun]
  | cons e es ih => simp only [launcherRun]; exact ih _ (launcherStep_LInv s e h)

lemma initState_LInv : LInv initState := by simp [LInv, initState]

/-- C5: in every state reachable from the initial one, `launcher_is_visible`
reports 1 exactly while a session is active; a `launcher_show` from an idle
state turns the flag on, and ending the session — by the user's terminal
action or by `launcher_hide` — turns it off. -/
theorem is_visible_tracks_session :
    (∀ es : List LEvent,
      (launcher_is_visible (launcherRun initState es).1).1 = 1 ↔
        (launcherRun initState es).1.active ≠ []) ∧
    (∀ (s : LauncherState) (placeholder : List Char) (ctx : Nat),
      s.active = [] →
      (launcher_is_visible (launcher_show s placeholder ctx).1).1 = 1) ∧
    (∀ (s : LauncherState) (code : LauncherResultCode) (sess : Session)
        (rest : List Session), s.active = sess :: rest →
      (launcher_is_visible (launcherStep s (.finish code)).1).1 = 0 ∧
      (launcher_is_visible (launcher_hide s).1).1 = 0) := by
  refine ⟨?_, ?_, ?_⟩
  · intro es
    have h := (launcherRun_LInv es initState initState_LInv).1
    cases hv : (launcherRun initState es).1.visible
    · rw [hv] at h
      simp only [Bool.false_eq_true, false_iff, ne_eq, not_not] at h
      simp [launcher_is_visible, hv, h]
    · rw [hv] at h
      simp only [true_iff] at h
      simp [launcher_is_visible, hv, h]
  · intro s placeholder ctx hs
    simp [launcher_show, launcherStep, hs, launcher_is_visible]
  · intro s code sess rest hs
    exact ⟨by simp [launcherStep, hs, launcher_is_visible],
           by simp [launcher_hide, launcherStep, hs, launcher_is_visible]⟩

/-- C5 witness: after one concrete `show` the flag is 1 and agrees with the
active session; finishing or hiding a concrete active state clears it. -/
theorem is_visible_tracks_session_witness :
    ((launcher_is_visible (launcherRun initState [LEvent.show 7]).1).1 = 1 ↔
      (launcherRun initState [LEvent.show 7]).1.active ≠ []) ∧
    (launcher_is_visible (launcher_show initState [] 7).1).1 = 1 ∧
    ((launcher_is_visible
        (launcherStep { visible := true, active := [{ ctx := 7, query := [] }] }
          (.finish .submitted)).1).1 = 0 ∧
     (launcher_is_visible
        (launcher_hide
          { visible := true, active := [{ ctx := 7, query := [] }] }).1).1 = 0) :=
  ⟨is_visible_tracks_session.1 [LEvent.show 7],
   is_visible_tracks_session.2.1 initState [] 7 rfl,
   is_visible_tracks_session.2.2
     { visible := true, active := [{ ctx := 7, query := [] }] }
     .submitted { ctx := 7, query := [] } [] rfl⟩

/-- C6: `launcher_hide` with no active session is a no-op that fires no
callback; with an active session it ends it as if dismissed; and a second
`hide` right after a first one changes nothing, so two calls have the same
effect as one. -/
theorem hide_idempotent :
    (∀ s : LauncherState, s.active = [] → launcher_hide s = (s, [])) ∧
    (∀ (s : LauncherState) (sess : Session) (rest : List Session),
      s.active = sess :: rest →
      launcher_hide s =
        ({ visible := false, active := [] },
         [{ result := .dismissed, query := sess.query, context := sess.ctx }])) ∧
    (∀ s : LauncherState,
      launcher_hide (launcher_hide s).1 = ((launcher_hide s).1, [])) := by
  refine ⟨?_, ?_, ?_⟩
  · intro s hs
    simp [launcher_hide, launcherStep, hs]
  · intro s sess rest hs
    simp [launcher_hide, launcherStep, hs]
  · intro s
    cases hs : s.active <;> simp [launcher_hide, launcherStep, hs]

/-- C6 witness: `hide` on the idle initial state is a no-op, and on a
concrete active state it dismisses that session. -/
theorem hide_idempotent_witness :
    launcher_hide initState = (initState, []) ∧
    launcher_hide { visible := true, active := [{ ctx := 5, query := ['a'] }] } =
      ({ visible := false, active := [] },
       [{ result := .dismissed, query := ['a'], context := 5 }]) :=
  ⟨hide_idempotent.1 initState rfl,
   hide_idempotent.2.1 { visible := true, active := [{ ctx := 5, query := ['a'] }] }
     { ctx := 5, query := ['a'] } [] rfl⟩

/-- C7: `launcher_is_visible` is a pure query: it returns the state
unchanged, and a second consecutive call returns the same flag value. -/
theorem is_visible_pure (s : LauncherState) :
    (launcher_is_visible s).2 = s ∧
    (launcher_is_visible ((launcher_is_visible s).2)).1 =
      (launcher_is_visible s).1 :=
  ⟨rfl, rfl⟩

/-- C8: in every state reachable from the initial one, at most one launcher
session is active: sessions are serialized. -/
theorem at_most_one_active_session (es : List LEvent) :
    (launcherRun initState es).1.active.length ≤ 1 :=
  (launcherRun_LInv es initState initState_LInv).2

end Launcher
